import Mathlib

/-!
Shallow embedding of the session manager (`src/services/auth.ts`) and the
offline mutation queue (`src/services/offline.ts`) of the travel-journal
client, together with proofs about the behaviour of the embedded operations.

Modelling conventions:
* JavaScript runs single-threaded on an event loop; code between two `await`
  boundaries is atomic with respect to other callbacks.  Stateful operations
  are embedded as explicit state-passing functions; the network is an oracle
  parameter describing the responses the environment would deliver.
* JavaScript numbers that occur in the embedded code are integers
  (epoch milliseconds, epoch seconds, HTTP status codes); they are modelled
  as `Int`/`Nat`.  `NaN` is modelled as `Option.none` where it can arise.
* JSON numbers are modelled as integers; fractional and exponent literals
  are outside the model (the tokens and stored values handled by the code
  only carry integer numbers).
-/

/-! ## JavaScript value model

`JsonValue` models the values `JSON.parse` can produce (with integer
numbers).  Object fields keep their textual order; on duplicate keys
`JSON.parse` keeps the last occurrence, which `jsonLookup` reproduces.
-/

inductive JsonValue where
  | null : JsonValue
  | bool (b : Bool) : JsonValue
  | num (n : Int) : JsonValue
  | str (s : String) : JsonValue
  | arr (elems : List JsonValue) : JsonValue
  | obj (fields : List (String × JsonValue)) : JsonValue

/-- Property access `v.exp` in JavaScript: defined (≠ `undefined`) only on
objects; on duplicate keys the later field wins, as in `JSON.parse`. -/
def jsonLookup (v : JsonValue) (key : String) : Option JsonValue :=
  match v with
  | .obj fields => (fields.reverse.find? (fun f => f.1 = key)).map (·.2)
  | _ => none

/-- Truthiness of a JavaScript value (`!v` is the negation of this):
`null`, `false`, `0` and `""` are falsy; arrays and objects are always
truthy, the empty ones included. -/
def jsTruthy : JsonValue → Bool
  | .null => false
  | .bool b => b
  | .num n => n ≠ 0
  | .str s => s ≠ ""
  | .arr _ => true
  | .obj _ => true

/-- Character of a decimal digit (only ever applied below `10`). -/
def digitChar : Nat → Char
  | 0 => '0' | 1 => '1' | 2 => '2' | 3 => '3' | 4 => '4'
  | 5 => '5' | 6 => '6' | 7 => '7' | 8 => '8' | _ => '9'

/-- Decimal digits of `n`, most significant first; the `fuel` parameter
bounds the recursion depth and any `fuel > n` is enough. -/
def natDigits : Nat → Nat → List Nat
  | 0, _ => []
  | fuel + 1, n =>
    if n < 10 then [n] else natDigits fuel (n / 10) ++ [n % 10]

/-- Decimal digits of a natural number, most significant first, as characters
(the output of JavaScript `Number.prototype.toString` for a non-negative
integer). -/
def natToChars (n : Nat) : List Char :=
  (natDigits (n + 1) n).map digitChar

/-- JavaScript `String(n)` for an integer `n`. -/
def jsIntToString (n : Int) : String :=
  if n < 0 then "-" ++ ⟨natToChars n.natAbs⟩ else ⟨natToChars n.toNat⟩

/-- Value of a big-endian list of decimal digits. -/
def digitsVal (l : List Nat) : Nat := l.foldl (fun acc d => 10 * acc + d) 0

/-- Decimal digit value of a character, when it is one of `'0'..'9'`. -/
def digitVal? (c : Char) : Option Nat :=
  if 48 ≤ c.toNat ∧ c.toNat ≤ 57 then some (c.toNat - 48) else none

/-- Longest leading run of decimal digits of a character list, with the rest. -/
def takeDigits : List Char → List Nat × List Char
  | [] => ([], [])
  | c :: rest =>
    match digitVal? c with
    | some d => let (ds, rs) := takeDigits rest; (d :: ds, rs)
    | none => ([], c :: rest)

/-- JavaScript `s.startsWith(p)`. -/
def jsStartsWith (s p : String) : Bool :=
  p.data.isPrefixOf s.data

/-- Characters treated as whitespace by JavaScript (the ASCII ones; the
strings handled by the embedded code contain no exotic whitespace). -/
def isJsWs (c : Char) : Bool :=
  c = ' ' ∨ c = '\t' ∨ c = '\n' ∨ c = '\r' ∨ c.toNat = 12 ∨ c.toNat = 11

/-- JavaScript `parseInt(s, 10)`: skip leading whitespace, read an optional
sign and then the longest leading digit run; `none` models `NaN` (no digit
found).  Trailing characters are ignored. -/
def jsParseInt (s : String) : Option Int :=
  let cs := s.data.dropWhile isJsWs
  match cs with
  | '-' :: rest =>
    match takeDigits rest with
    | ([], _) => none
    | (ds, _) => some (-(digitsVal ds : Int))
  | '+' :: rest =>
    match takeDigits rest with
    | ([], _) => none
    | (ds, _) => some (digitsVal ds)
  | _ =>
    match takeDigits cs with
    | ([], _) => none
    | (ds, _) => some (digitsVal ds)

/-- JavaScript `Number(s)` (the `ToNumber` coercion on strings), restricted
to the integer forms: whitespace-only gives `0`, an optionally signed digit
run consuming the whole remainder gives its value, anything else is `NaN`
(`none`).  Fractional, exponent, hexadecimal and `Infinity` forms are
outside the model. -/
def jsStringToNumber (s : String) : Option Int :=
  let cs := (s.data.dropWhile isJsWs).reverse.dropWhile isJsWs |>.reverse
  match cs with
  | [] => some 0
  | '-' :: rest =>
    match takeDigits rest with
    | ([], _) => none
    | (ds, rs) => if rs = [] then some (-(digitsVal ds : Int)) else none
  | '+' :: rest =>
    match takeDigits rest with
    | ([], _) => none
    | (ds, rs) => if rs = [] then some (digitsVal ds) else none
  | _ =>
    match takeDigits cs with
    | ([], _) => none
    | (ds, rs) => if rs = [] then some (digitsVal ds) else none

mutual

/-- JavaScript `String(v)` as it occurs inside `Array.prototype.join`:
`null` becomes the empty string, arrays join their elements with commas,
plain objects display as `[object Object]`. -/
def jsDisplay : JsonValue → String
  | .null => ""
  | .bool b => if b then "true" else "false"
  | .num n => jsIntToString n
  | .str s => s
  | .arr xs => jsJoin xs
  | .obj _ => "[object Object]"

/-- Comma-joined display of array elements (`Array.prototype.join`). -/
def jsJoin : List JsonValue → String
  | [] => ""
  | [x] => jsDisplay x
  | x :: y :: rest => jsDisplay x ++ "," ++ jsJoin (y :: rest)

end

/-- JavaScript `ToNumber` on a JSON value: numbers are themselves, `null`
and `false` are `0`, `true` is `1`, strings coerce via `Number(s)`, arrays
coerce through their joined display, objects are `NaN` (`none`). -/
def jsToNumber : JsonValue → Option Int
  | .null => some 0
  | .bool b => some (if b then 1 else 0)
  | .num n => some n
  | .str s => jsStringToNumber s
  | .arr xs => jsStringToNumber (jsJoin xs)
  | .obj _ => none

/-! ## Base64 and UTF-8 decoding (`atob` and `decodeURIComponent`)

`decodeJWT` runs `atob` on the base64url payload (after mapping `-`/`_` to
`+`/`/`), percent-encodes the resulting byte string and feeds it to
`decodeURIComponent`; the composition of the last two steps is exactly
UTF-8 decoding of the byte list, rejecting malformed sequences. -/

/-- Value of a base64 alphabet character, `none` outside the alphabet. -/
def b64CharVal (c : Char) : Option Nat :=
  if 65 ≤ c.toNat ∧ c.toNat ≤ 90 then some (c.toNat - 65)
  else if 97 ≤ c.toNat ∧ c.toNat ≤ 122 then some (c.toNat - 97 + 26)
  else if 48 ≤ c.toNat ∧ c.toNat ≤ 57 then some (c.toNat - 48 + 52)
  else if c = '+' then some 62
  else if c = '/' then some 63
  else none

/-- Byte groups of a base64 sextet list: four sextets give three bytes, a
final pair or triple gives one or two bytes (leftover bits are discarded,
as in the forgiving-base64 decode run by `atob`). -/
def b64Groups : List Nat → Option (List Nat)
  | [] => some []
  | [_] => none
  | [v0, v1] => some [(v0 * 4 + v1 / 16) % 256]
  | [v0, v1, v2] => some [(v0 * 4 + v1 / 16) % 256, (v1 % 16 * 16 + v2 / 4) % 256]
  | v0 :: v1 :: v2 :: v3 :: rest => do
    let tail ← b64Groups rest
    pure ((v0 * 4 + v1 / 16) % 256 :: (v1 % 16 * 16 + v2 / 4) % 256 ::
      (v2 % 4 * 64 + v3) % 256 :: tail)

/-- Browser `atob`: forgiving-base64 decode.  Strips ASCII whitespace, then
up to two trailing `=` when the length is a multiple of four; fails when
the remaining length is `1 mod 4`, when a `=` remains, or on a character
outside the base64 alphabet. -/
def atob (s : String) : Option (List Nat) := do
  let data := s.data.filter (fun c => !isJsWs c)
  let data :=
    if data.length % 4 = 0 then
      match data.reverse with
      | '=' :: '=' :: rev => rev.reverse
      | '=' :: rev => rev.reverse
      | _ => data
    else data
  if data.length % 4 = 1 then none
  else do
    let vals ← data.mapM b64CharVal
    b64Groups vals

/-- UTF-8 decoding of a byte list, as performed by
`decodeURIComponent` on the percent-encoded bytes: rejects stray
continuation bytes, overlong encodings, surrogates, and code points above
`U+10FFFF` (on which `decodeURIComponent` throws, which `decodeJWT`
catches). -/
def utf8Decode : List Nat → Option (List Char)
  | [] => some []
  | b :: rest =>
    if b < 128 then do
      pure (Char.ofNat b :: (← utf8Decode rest))
    else if 194 ≤ b ∧ b ≤ 223 then
      match rest with
      | c1 :: rest' =>
        if 128 ≤ c1 ∧ c1 ≤ 191 then do
          pure (Char.ofNat ((b - 192) * 64 + (c1 - 128)) :: (← utf8Decode rest'))
        else none
      | _ => none
    else if 224 ≤ b ∧ b ≤ 239 then
      match rest with
      | c1 :: c2 :: rest' =>
        if (128 ≤ c1 ∧ c1 ≤ 191) ∧ (128 ≤ c2 ∧ c2 ≤ 191) ∧
            (b ≠ 224 ∨ 160 ≤ c1) ∧ (b ≠ 237 ∨ c1 ≤ 159) then do
          pure (Char.ofNat ((b - 224) * 4096 + (c1 - 128) * 64 + (c2 - 128)) ::
            (← utf8Decode rest'))
        else none
      | _ => none
    else if 240 ≤ b ∧ b ≤ 244 then
      match rest with
      | c1 :: c2 :: c3 :: rest' =>
        if (128 ≤ c1 ∧ c1 ≤ 191) ∧ (128 ≤ c2 ∧ c2 ≤ 191) ∧ (128 ≤ c3 ∧ c3 ≤ 191) ∧
            (b ≠ 240 ∨ 144 ≤ c1) ∧ (b ≠ 244 ∨ c1 ≤ 143) then do
          pure (Char.ofNat ((b - 240) * 262144 + (c1 - 128) * 4096 +
            (c2 - 128) * 64 + (c3 - 128)) :: (← utf8Decode rest'))
        else none
      | _ => none
    else none

/-! ## JSON parsing (`JSON.parse`)

A recursive-descent parser over the character list, with a fuel parameter
to bound the recursion; `jsonParse` supplies fuel `2 * length + 2`, which
is more than any input can consume (every two units of fuel consume at
least one character), so well-formed inputs never run out. -/

/-- Whitespace accepted between JSON tokens. -/
def isJsonWs (c : Char) : Bool :=
  c = ' ' ∨ c = '\t' ∨ c = '\n' ∨ c = '\r'

/-- Hexadecimal digit value of a character, if any. -/
def hexVal? (c : Char) : Option Nat :=
  if 48 ≤ c.toNat ∧ c.toNat ≤ 57 then some (c.toNat - 48)
  else if 97 ≤ c.toNat ∧ c.toNat ≤ 102 then some (c.toNat - 97 + 10)
  else if 65 ≤ c.toNat ∧ c.toNat ≤ 70 then some (c.toNat - 65 + 10)
  else none

/-- Body of a JSON string literal after the opening quote: plain characters
(control characters under `0x20` are rejected) and the escapes
`\" \\ \/ \b \f \n \r \t \uXXXX`.  A `\uXXXX` escape denoting a surrogate
must be followed by its matching low-surrogate escape (lone surrogates are
outside the model, since Lean strings cannot hold them). -/
def parseStringBody : List Char → Option (List Char × List Char)
  | [] => none
  | '"' :: rest => some ([], rest)
  | '\\' :: esc =>
    match esc with
    | '"' :: rest => do let (s, r) ← parseStringBody rest; pure ('"' :: s, r)
    | '\\' :: rest => do let (s, r) ← parseStringBody rest; pure ('\\' :: s, r)
    | '/' :: rest => do let (s, r) ← parseStringBody rest; pure ('/' :: s, r)
    | 'b' :: rest => do let (s, r) ← parseStringBody rest; pure (Char.ofNat 8 :: s, r)
    | 'f' :: rest => do let (s, r) ← parseStringBody rest; pure (Char.ofNat 12 :: s, r)
    | 'n' :: rest => do let (s, r) ← parseStringBody rest; pure ('\n' :: s, r)
    | 'r' :: rest => do let (s, r) ← parseStringBody rest; pure ('\r' :: s, r)
    | 't' :: rest => do let (s, r) ← parseStringBody rest; pure ('\t' :: s, r)
    | 'u' :: h1 :: h2 :: h3 :: h4 :: rest => do
      let a ← hexVal? h1
      let b ← hexVal? h2
      let c ← hexVal? h3
      let d ← hexVal? h4
      let cp := a * 4096 + b * 256 + c * 16 + d
      if cp < 55296 ∨ 57343 < cp then
        let (s, r) ← parseStringBody rest
        pure (Char.ofNat cp :: s, r)
      else if cp ≤ 56319 then
        match rest with
        | '\\' :: 'u' :: l1 :: l2 :: l3 :: l4 :: rest' => do
          let a' ← hexVal? l1
          let b' ← hexVal? l2
          let c' ← hexVal? l3
          let d' ← hexVal? l4
          let lo := a' * 4096 + b' * 256 + c' * 16 + d'
          if 56320 ≤ lo ∧ lo ≤ 57343 then
            let (s, r) ← parseStringBody rest'
            pure (Char.ofNat ((cp - 55296) * 1024 + (lo - 56320) + 65536) :: s, r)
          else none
        | _ => none
      else none
    | _ => none
  | c :: rest =>
    if c.toNat < 32 then none
    else do let (s, r) ← parseStringBody rest; pure (c :: s, r)

/-- JSON integer literal: optional minus, then either `0` or a nonzero
leading digit run (JSON forbids leading zeros).  A following `.`, `e` or
`E` would start a fractional or exponent part, which is outside the model,
so the parse fails there. -/
def parseJsonNumber : List Char → Option (Int × List Char)
  | cs =>
    let (neg, cs') := match cs with
      | '-' :: rest => (true, rest)
      | _ => (false, cs)
    match takeDigits cs' with
    | ([], _) => none
    | (ds, rs) =>
      if ds.length > 1 ∧ ds.headI = 0 then none
      else match rs with
        | '.' :: _ => none
        | 'e' :: _ => none
        | 'E' :: _ => none
        | _ =>
          let v : Int := digitsVal ds
          some (if neg then -v else v, rs)

mutual

/-- One JSON value at the head of the input (leading whitespace allowed),
returning it with the unconsumed rest. -/
def parseValue : Nat → List Char → Option (JsonValue × List Char)
  | 0, _ => none
  | fuel + 1, cs =>
    match cs.dropWhile isJsonWs with
    | 'n' :: 'u' :: 'l' :: 'l' :: rest => some (.null, rest)
    | 't' :: 'r' :: 'u' :: 'e' :: rest => some (.bool true, rest)
    | 'f' :: 'a' :: 'l' :: 's' :: 'e' :: rest => some (.bool false, rest)
    | '"' :: rest => do
      let (s, r) ← parseStringBody rest
      pure (.str ⟨s⟩, r)
    | '[' :: rest =>
      (match rest.dropWhile isJsonWs with
      | ']' :: r => some (.arr [], r)
      | _ => do
        let (vs, r) ← parseElems fuel rest
        pure (.arr vs, r))
    | '{' :: rest =>
      (match rest.dropWhile isJsonWs with
      | '}' :: r => some (.obj [], r)
      | _ => do
        let (fs, r) ← parseFields fuel rest
        pure (.obj fs, r))
    | other => do
      let (n, r) ← parseJsonNumber other
      pure (.num n, r)

/-- Elements of a JSON array after the opening bracket. -/
def parseElems : Nat → List Char → Option (List JsonValue × List Char)
  | 0, _ => none
  | fuel + 1, cs => do
    let (v, r) ← parseValue fuel cs
    match r.dropWhile isJsonWs with
    | ',' :: rest => do
      let (vs, r') ← parseElems fuel rest
      pure (v :: vs, r')
    | ']' :: rest => pure ([v], rest)
    | _ => none

/-- Fields of a JSON object after the opening brace. -/
def parseFields : Nat → List Char → Option (List (String × JsonValue) × List Char)
  | 0, _ => none
  | fuel + 1, cs =>
    match cs.dropWhile isJsonWs with
    | '"' :: rest => do
      let (k, r) ← parseStringBody rest
      match r.dropWhile isJsonWs with
      | ':' :: rest' => do
        let (v, r') ← parseValue fuel rest'
        match r'.dropWhile isJsonWs with
        | ',' :: rest'' => do
          let (fs, rr) ← parseFields fuel rest''
          pure ((⟨k⟩, v) :: fs, rr)
        | '}' :: rest'' => pure ([(⟨k⟩, v)], rest'')
        | _ => none
      | _ => none
    | _ => none

end

/-- JavaScript `JSON.parse`: one value, with only whitespace around it. -/
def jsonParse (s : String) : Option JsonValue := do
  let (v, rest) ← parseValue (2 * s.data.length + 2) s.data
  if rest.dropWhile isJsonWs = [] then pure v else none

/-! ## Token decoding (`decodeJWT`, `isTokenExpired`)

`src/services/auth.ts` lines 48–90. -/

/-- JavaScript `token.split('.')`: split on every dot, keeping empty
segments. -/
def jsSplitDot (s : String) : List String :=
  let rec go : List Char → List Char → List String
    | acc, [] => [⟨acc.reverse⟩]
    | acc, '.' :: rest => ⟨acc.reverse⟩ :: go [] rest
    | acc, c :: rest => go (c :: acc) rest
  go [] s.data

/-- The `decodeJWT` constant of `src/services/auth.ts` (lines 48–64): take
the second dot-separated segment of the token, map the base64url alphabet
to base64, decode with `atob`, UTF-8-decode the bytes
(percent-encoding followed by `decodeURIComponent`), and `JSON.parse` the
result.  Every failure, as well as an absent or empty segment, yields
`none` (the function returns `null`).  There is no check that the token
has exactly three segments. -/
def decodeJWT (token : String) : Option JsonValue := do
  let base64Url ← (jsSplitDot token).get? 1
  if base64Url = "" then none
  else do
    let base64 : String := ⟨base64Url.data.map (fun c =>
      if c = '-' then '+' else if c = '_' then '/' else c)⟩
    let bytes ← atob base64
    let chars ← utf8Decode bytes
    jsonParse ⟨chars⟩

/-- The `isTokenExpired` constant of `src/services/auth.ts` (lines 66–90),
with `Date.now()` passed explicitly as `now` (epoch milliseconds).
Mirrors the source line by line: an empty token, a failed decode, a falsy
decoded value, and a falsy `exp` property are all reported expired; an
`exp` that coerces to `NaN` makes `Date.now() >= exp * 1000 - 60000`
false, so such a token is reported NOT expired. -/
def isTokenExpired (now : Int) (token : String) : Bool :=
  if token = "" then true
  else
    match decodeJWT token with
    | none => true
    | some decoded =>
      if !jsTruthy decoded then true
      else
        match jsonLookup decoded "exp" with
        | none => true
        | some expVal =>
          if !jsTruthy expVal then true
          else
            match jsToNumber expVal with
            | none => false
            | some e => decide (now ≥ e * 1000 - 60000)

/-! ## Secure storage and the session manager (`src/services/auth.ts`)

The four `SecureStore` keys used by the service become the four fields of
`SecureStore`; `none` means the key is absent.  All storage operations are
state-passing functions.  The network is an oracle: a `NetResult` value
describes what a `fetch` call would produce (a status with a parsed JSON
body, or a thrown network error). -/

structure SecureStore where
  access_token : Option String
  refresh_token : Option String
  token_expiry : Option String
  user_data : Option String
  deriving DecidableEq, Repr

/-- Storage with no key present (logged out). -/
def emptyStore : SecureStore := ⟨none, none, none, none⟩

/-- The `AuthTokens` interface.  `expiresAt` is a JavaScript number holding
epoch milliseconds; `none` models `NaN`. -/
structure AuthTokens where
  accessToken : String
  refreshToken : String
  expiresAt : Option Int
  deriving DecidableEq, Repr

/-- Outcome of one `fetch` call: an HTTP status with the parsed JSON body,
or a thrown network error. -/
inductive NetResult (α : Type) where
  | resp (status : Nat) (data : α) : NetResult α
  | netErr : NetResult α
  deriving DecidableEq, Repr

/-- The function `auth.saveTokens` (lines 97–103): writes the three token
keys; the expiry is stored via `Number.prototype.toString`. -/
def saveTokens (t : AuthTokens) (s : SecureStore) : SecureStore :=
  { s with
    access_token := some t.accessToken,
    refresh_token := some t.refreshToken,
    token_expiry := some (match t.expiresAt with
      | some n => jsIntToString n
      | none => "NaN") }

/-- The function `auth.clearTokens` (lines 137–143): removes the three token
keys. -/
def clearTokens (s : SecureStore) : SecureStore :=
  { s with access_token := none, refresh_token := none, token_expiry := none }

/-- The function `auth.saveUser` (lines 147–149); the user is carried as its
`JSON.stringify` image. -/
def saveUser (u : String) (s : SecureStore) : SecureStore :=
  { s with user_data := some u }

/-- The function `auth.clearUser` (lines 156–158). -/
def clearUser (s : SecureStore) : SecureStore :=
  { s with user_data := none }

/-- The function `auth.getTokens` (lines 104–136).  Returns `null` when
either token is absent or empty (`!accessToken || !refreshToken`); when the
access token is the simulator mock literal or starts with `mock-`, clears
the token keys and returns `null`; otherwise returns the credential, the
expiry parsed with `parseInt(expiresAt, 10)` and an absent or empty expiry
read as `0`. -/
def getTokens (s : SecureStore) : SecureStore × Option AuthTokens :=
  match s.access_token, s.refresh_token with
  | some a, some r =>
    if a = "" ∨ r = "" then (s, none)
    else if a = "SIMULATOR_MOCK_TOKEN" ∨ jsStartsWith a "mock-" then
      (clearTokens s, none)
    else
      (s, some
        { accessToken := a
          refreshToken := r
          expiresAt :=
            match s.token_expiry with
            | some e => if e = "" then some 0 else jsParseInt e
            | none => some 0 })
  | _, _ => (s, none)

/-- The function `auth.logout` (lines 267–282).  The `try` block reads the
tokens and, when a credential is present, issues a best-effort POST to the
logout endpoint whose outcome `_net` — response or thrown network failure —
is discarded by the `catch`.  The final statement evaluates
`Promise.all([this.clearTokens, this.clearUser()])`: `this.clearTokens` is
only referenced, never invoked, so of the two cleanups only `clearUser`
takes effect and the token keys are left as `getTokens` left them. -/
def logout (_net : NetResult Unit) (s : SecureStore) : SecureStore :=
  clearUser (getTokens s).1

/-- Body of a refresh-endpoint response, fields absent when the server
omits them. -/
structure RefreshData where
  accessToken : Option String
  token : Option String
  refreshToken : Option String
  expiresIn : Option Int
  deriving DecidableEq, Repr

/-- JavaScript `a || b` on possibly-undefined strings: `a` when truthy
(present and non-empty), otherwise `b`. -/
def jsOrStr (a b : Option String) : Option String :=
  match a with
  | some x => if x = "" then b else some x
  | none => b

/-- The function `auth._doRefresh` (lines 293–324), with the refresh
endpoint's behaviour as the oracle `net` and `Date.now()` as `now`.
Returns the final storage, the result, and the number of network calls
made to the refresh endpoint.  Reading the stored credential goes through
`getTokens`, so an absent, empty or mock token short-circuits to `null`
with no network call.  On a non-2xx status the code runs `this.logout()`
(which, see `logout`, clears only the user) and returns `null`; on a
thrown network error the `catch` returns `null`.  On success the new
credential reuses the stored refresh token when the response carries no
truthy `refreshToken`, takes `data.accessToken || data.token` as access
token, and `expiresIn` defaults to `3600` when absent or `0`; the case
where both access-token fields are absent would store `undefined`, which
the secure store rejects and the `catch` turns into `null` (partial writes
of the parallel `Promise.all` are outside the model). -/
def doRefresh (net : NetResult RefreshData) (lnet : NetResult Unit) (now : Int)
    (s : SecureStore) : SecureStore × Option AuthTokens × Nat :=
  let (s1, tokens) := getTokens s
  match tokens with
  | none => (s1, none, 0)
  | some tk =>
    if tk.refreshToken = "" then (s1, none, 0)
    else
      match net with
      | .netErr => (s1, none, 1)
      | .resp status data =>
        if 200 ≤ status ∧ status < 300 then
          match jsOrStr data.accessToken data.token with
          | none => (s1, none, 1)
          | some a =>
            let expiresIn := match data.expiresIn with
              | some n => if n = 0 then 3600 else n
              | none => 3600
            match jsOrStr data.refreshToken (some tk.refreshToken) with
            | none => (s1, none, 1)
            | some r =>
              let newTokens : AuthTokens :=
                { accessToken := a, refreshToken := r,
                  expiresAt := some (now + expiresIn * 1000) }
              (saveTokens newTokens s1, some newTokens, 1)
        else
          (logout lnet s1, none, 1)

/-! ## Single-flight coordination of `auth.refreshTokens` (lines 283–292)

The module-level variable `refreshPromise` and the callers of
`refreshTokens` live on one event loop.  The prologue

```text
if (refreshPromise) return refreshPromise;
refreshPromise = this._doRefresh();
```

contains no `await`, so it runs atomically: `refreshTokensEnter` is that
prologue as a step on the cell state.  Each promise gets a fresh id;
`started` counts how many `_doRefresh` invocations have been created, each
of which performs the refresh network call (`doRefresh`).  When the
promise settles, the `finally` of the first caller resets the variable:
`refreshTokensSettle`. -/

structure RefreshCell where
  refreshPromise : Option Nat
  started : Nat
  nextId : Nat
  deriving DecidableEq, Repr

/-- Atomic prologue of `auth.refreshTokens`: join the in-flight promise if
there is one, otherwise create a fresh `_doRefresh` promise and publish
it.  Returns the id of the promise this caller awaits. -/
def refreshTokensEnter (c : RefreshCell) : RefreshCell × Nat :=
  match c.refreshPromise with
  | some p => (c, p)
  | none =>
    ({ refreshPromise := some c.nextId, started := c.started + 1,
       nextId := c.nextId + 1 }, c.nextId)

/-- The `finally` clause of `auth.refreshTokens`: once the awaited promise
settles (fulfilled or rejected), the in-flight marker is reset. -/
def refreshTokensSettle (c : RefreshCell) : RefreshCell :=
  { c with refreshPromise := none }

/-- N concurrent callers reaching the prologue before the refresh settles:
the ids each of them awaits, with the final cell state. -/
def refreshTokensEnterN : Nat → RefreshCell → RefreshCell × List Nat
  | 0, c => (c, [])
  | n + 1, c =>
    let (c', p) := refreshTokensEnter c
    let (c'', ps) := refreshTokensEnterN n c'
    (c'', p :: ps)

/-! ## Authenticated fetch (`auth.fetch`, lines 374–414) -/

/-- Outcome of one `fetch` call when only the status matters. -/
inductive FetchOutcome where
  | resp (status : Nat) : FetchOutcome
  | netErr : FetchOutcome
  deriving DecidableEq, Repr

/-- What `auth.fetch` delivers to its caller: the returned response, or one
of its thrown errors (`Not authenticated`, `Session expired`, or a network
failure propagating out of `fetch`). -/
inductive AuthFetchResult where
  | response (status : Nat) : AuthFetchResult
  | notAuthenticated : AuthFetchResult
  | sessionExpired : AuthFetchResult
  | networkFailure : AuthFetchResult
  deriving DecidableEq, Repr

/-- Request-issuing part of `auth.fetch` (lines 388–413), after a usable
credential `tk` has been obtained.  `responses` are the outcomes of the
successive requests to `url`; `retryRefresh` is what the second
`this.refreshTokens()` call would deliver.  Returns the outcome together
with the bearer tokens of the requests actually issued, in order: on a 401
the request is reissued exactly once with the refreshed access token and
that second response — whatever its status — is returned as-is. -/
def authFetchIssue (tk : AuthTokens) (retryRefresh : Option AuthTokens)
    (responses : List FetchOutcome) : AuthFetchResult × List String :=
  match responses.getD 0 .netErr with
  | .netErr => (.networkFailure, [tk.accessToken])
  | .resp status =>
    if status = 401 then
      match retryRefresh with
      | none => (.sessionExpired, [tk.accessToken])
      | some t' =>
        match responses.getD 1 .netErr with
        | .netErr => (.networkFailure, [tk.accessToken, t'.accessToken])
        | .resp st2 => (.response st2, [tk.accessToken, t'.accessToken])
    else (.response status, [tk.accessToken])

/-- The function `auth.fetch` (lines 374–414).  `refreshResults` lists the
outcomes of the successive `this.refreshTokens()` calls (an oracle for the
refresh endpoint's behaviour); `responses` the outcomes of the successive
requests to `url`.  Storage side effects (the refresh persisting a new
credential, the clears before a `Session expired` throw) happen inside the
oracled calls and are not tracked here; the function returns the outcome
and the bearer tokens of the issued requests. -/
def authFetch (now : Int) (refreshResults : List (Option AuthTokens))
    (responses : List FetchOutcome) (s : SecureStore) :
    AuthFetchResult × List String :=
  match (getTokens s).2 with
  | none => (.notAuthenticated, [])
  | some tk =>
    if isTokenExpired now tk.accessToken then
      match refreshResults.getD 0 none with
      | none => (.sessionExpired, [])
      | some t => authFetchIssue t (refreshResults.getD 1 none) responses
    else
      authFetchIssue tk (refreshResults.getD 0 none) responses

/-! ## Offline queue (`src/services/offline.ts`)

The `AsyncStorage` key `@offline_queue` holds the JSON image of the queue;
it is modelled by its parsed value (`none` when the key is absent), the
JSON round trip being the identity on queues.  The network is the oracle
`net`, giving for each queued action the outcome of the request that
`syncQueue` issues for it. -/

structure QueueAction where
  id : String
  type : String
  endpoint : String
  method : String
  payload : String
  timestamp : Nat
  deriving DecidableEq, Repr

structure OfflineStore where
  offline_queue : Option (List QueueAction)
  deriving DecidableEq, Repr

/-- The function `getQueue` (lines 41–44): parse the stored queue, the
empty list when the key is absent. -/
def getQueue (st : OfflineStore) : List QueueAction :=
  st.offline_queue.getD []

/-- The function `checkIsOnline` (lines 34–37).  Its body is identical to
`getQueue`: it reads the persisted offline queue and returns it (its
declared type is `Promise<QueueAction[]>`).  No connectivity signal is
consulted anywhere in the module. -/
def checkIsOnline (st : OfflineStore) : List QueueAction :=
  st.offline_queue.getD []

/-- Truthiness of a JavaScript array: every array object is truthy, the
empty one included, so `!isOnline`-style guards on an array never fire. -/
def jsArrayTruthy {α : Type} (_xs : List α) : Bool := true

/-- The function `addToQueue` (lines 46–59), with `Date.now()` and the
`Math.random().toString(36).substr(2, 9)` suffix as the oracle inputs
`now` and `rand`.  Reads the current queue, appends the new action — id
`` `${Date.now()}-${...}` ``, timestamp `Date.now()` — and writes the
whole queue back.  The function returns `Promise<void>`: the stored
record is not returned to the caller. -/
def addToQueue (now : Nat) (rand : String)
    (type endpoint method payload : String) (st : OfflineStore) : OfflineStore :=
  let queue := getQueue st
  let newAction : QueueAction :=
    { id := ⟨natToChars now⟩ ++ "-" ++ rand
      type := type, endpoint := endpoint, method := method, payload := payload
      timestamp := now }
  { offline_queue := some (queue ++ [newAction]) }

/-- The function `removeFromQueue` (lines 61–65): writes back the queue
without the actions carrying the given id. -/
def removeFromQueue (actionId : String) (st : OfflineStore) : OfflineStore :=
  { offline_queue := some ((getQueue st).filter (fun a => a.id ≠ actionId)) }

/-- Loop body of `syncQueue` (lines 85–104), iterating over the snapshot
`queue` in order while the persisted queue evolves underneath.  For each
action: a 2xx response removes it from the persisted queue and bumps
`synced`; a thrown network error is caught and bumps `failed`; a non-2xx
response falls through the `if (response.ok)` — the source has no `else`
branch — leaving the action queued and both counters untouched. -/
def syncLoop (net : QueueAction → FetchOutcome) :
    List QueueAction → OfflineStore → Nat → Nat → OfflineStore × Nat × Nat
  | [], st, synced, failed => (st, synced, failed)
  | action :: rest, st, synced, failed =>
    match net action with
    | .resp status =>
      if 200 ≤ status ∧ status < 300 then
        syncLoop net rest (removeFromQueue action.id st) (synced + 1) failed
      else
        syncLoop net rest st synced failed
    | .netErr => syncLoop net rest st synced (failed + 1)

/-- The function `syncQueue` (lines 69–106).  The `isOnline` guard holds
the array returned by `checkIsOnline`, which is truthy even when empty, so
the offline short-circuit never fires; an empty queue returns `{0, 0}`;
otherwise the queue is replayed strictly in order, one request at a time,
by `syncLoop`. -/
def syncQueue (net : QueueAction → FetchOutcome) (st : OfflineStore) :
    OfflineStore × Nat × Nat :=
  let isOnline := checkIsOnline st
  if !jsArrayTruthy isOnline then (st, 0, 0)
  else
    let queue := getQueue st
    if queue.length = 0 then (st, 0, 0)
    else syncLoop net queue st 0 0

/-- Whether a request outcome is a 2xx response (`response.ok`). -/
def isOk : FetchOutcome → Bool
  | .resp status => decide (200 ≤ status ∧ status < 300)
  | .netErr => false

/-- Whether a request outcome is a thrown network error. -/
def isErr : FetchOutcome → Bool
  | .resp _ => false
  | .netErr => true

/-- Ids of the actions of `l` whose request (per the oracle `net`) gets a
2xx response — the ones `syncQueue` removes. -/
def succIds (net : QueueAction → FetchOutcome) (l : List QueueAction) : List String :=
  (l.filter (fun a => isOk (net a))).map QueueAction.id

/-! ## Proofs -/

/-- Unfolding of `syncLoop` on a queue head whose request returns a status. -/
theorem syncLoop_cons_resp (net : QueueAction → FetchOutcome) (a : QueueAction)
    (rest : List QueueAction) (st : OfflineStore) (s f status : Nat)
    (h : net a = .resp status) :
    syncLoop net (a :: rest) st s f =
      if 200 ≤ status ∧ status < 300 then
        syncLoop net rest (removeFromQueue a.id st) (s + 1) f
      else syncLoop net rest st s f := by
  rw [syncLoop, h]

/-- Unfolding of `syncLoop` on a queue head whose request throws. -/
theorem syncLoop_cons_netErr (net : QueueAction → FetchOutcome) (a : QueueAction)
    (rest : List QueueAction) (st : OfflineStore) (s f : Nat)
    (h : net a = .netErr) :
    syncLoop net (a :: rest) st s f = syncLoop net rest st s (f + 1) := by
  rw [syncLoop, h]

/-- The `synced` counter counts exactly the 2xx outcomes and the `failed`
counter exactly the thrown network errors of the replayed actions. -/
theorem syncLoop_counts (net : QueueAction → FetchOutcome) :
    ∀ (l : List QueueAction) (st : OfflineStore) (s f : Nat),
      (syncLoop net l st s f).2.1 = s + (l.filter (fun a => isOk (net a))).length ∧
      (syncLoop net l st s f).2.2 = f + (l.filter (fun a => isErr (net a))).length := by
  intro l
  induction l with
  | nil => intro st s f; simp [syncLoop]
  | cons a rest ih =>
    intro st s f
    cases hna : net a with
    | resp status =>
      rw [syncLoop_cons_resp net a rest st s f status hna]
      by_cases hok : 200 ≤ status ∧ status < 300
      · rw [if_pos hok]
        obtain ⟨h1, h2⟩ := ih (removeFromQueue a.id st) (s + 1) f
        refine ⟨?_, ?_⟩
        · rw [h1]; simp [List.filter_cons, hna, isOk, isErr, hok]; omega
        · rw [h2]; simp [List.filter_cons, hna, isOk, isErr, hok]
      · rw [if_neg hok]
        obtain ⟨h1, h2⟩ := ih st s f
        refine ⟨?_, ?_⟩
        · rw [h1]; simp [List.filter_cons, hna, isOk, isErr, hok]
        · rw [h2]; simp [List.filter_cons, hna, isOk, isErr]
    | netErr =>
      rw [syncLoop_cons_netErr net a rest st s f hna]
      obtain ⟨h1, h2⟩ := ih st s (f + 1)
      refine ⟨?_, ?_⟩
      · rw [h1]; simp [List.filter_cons, hna, isOk, isErr]
      · rw [h2]; simp [List.filter_cons, hna, isOk, isErr]; omega

/-- After the replay loop, the persisted queue holds exactly the actions
whose id is not among the ids replayed with a 2xx outcome, in order. -/
theorem syncLoop_queue (net : QueueAction → FetchOutcome) :
    ∀ (l : List QueueAction) (st : OfflineStore) (s f : Nat),
      getQueue (syncLoop net l st s f).1
        = (getQueue st).filter (fun x => !decide (x.id ∈ succIds net l)) := by
  intro l
  induction l with
  | nil =>
    intro st s f
    simp [syncLoop, succIds]
  | cons a rest ih =>
    intro st s f
    cases hna : net a with
    | resp status =>
      by_cases hok : 200 ≤ status ∧ status < 300
      · rw [syncLoop_cons_resp net a rest st s f status hna, if_pos hok]
        rw [ih (removeFromQueue a.id st) (s + 1) f]
        have hq : getQueue (removeFromQueue a.id st)
            = (getQueue st).filter (fun x => decide ¬(x.id = a.id)) := rfl
        rw [hq, List.filter_filter]
        have hids : succIds net (a :: rest) = a.id :: succIds net rest := by
          simp [succIds, List.filter_cons, hna, isOk, hok]
        rw [hids]
        refine List.filter_congr ?_
        intro x hx
        by_cases hxa : x.id = a.id <;> by_cases hxr : x.id ∈ succIds net rest <;>
          simp [hxa, hxr, List.mem_cons]
      · rw [syncLoop_cons_resp net a rest st s f status hna, if_neg hok]
        rw [ih st s f]
        have hids : succIds net (a :: rest) = succIds net rest := by
          simp [succIds, List.filter_cons, hna, isOk, hok]
        rw [hids]
    | netErr =>
      rw [syncLoop_cons_netErr net a rest st s f hna]
      rw [ih st s (f + 1)]
      have hids : succIds net (a :: rest) = succIds net rest := by
        simp [succIds, List.filter_cons, hna, isOk]
      rw [hids]

/-- C2 (amended): `syncQueue` replays the queued operations strictly in
enqueue order, one at a time.  An operation whose request gets a 2xx
response is removed from the queue and counted in `synced`; one whose
request throws a network error stays queued and is counted in `failed`;
one whose request gets a non-2xx response stays queued but is counted in
NEITHER counter (the source's `if (response.ok)` has no `else` branch), so
`synced + failed` can fall short of the number of attempted operations.
Stated for queues with pairwise distinct ids, as `removeFromQueue` removes
by id. -/
theorem syncQueue_replay (net : QueueAction → FetchOutcome) (st : OfflineStore)
    (hids : ((getQueue st).map QueueAction.id).Nodup) :
    getQueue (syncQueue net st).1 = (getQueue st).filter (fun a => !isOk (net a)) ∧
    (syncQueue net st).2.1 = ((getQueue st).filter (fun a => isOk (net a))).length ∧
    (syncQueue net st).2.2 = ((getQueue st).filter (fun a => isErr (net a))).length := by
  have hq : syncQueue net st
      = if (getQueue st).length = 0 then (st, 0, 0) else syncLoop net (getQueue st) st 0 0 := rfl
  have hpoint : ∀ x ∈ getQueue st,
      (!decide (x.id ∈ succIds net (getQueue st))) = !isOk (net x) := by
    intro x hx
    by_cases hm : x.id ∈ succIds net (getQueue st)
    · simp only [succIds, List.mem_map, List.mem_filter] at hm
      obtain ⟨y, ⟨hyq, hyok⟩, hyid⟩ := hm
      have hyx : y = x := List.inj_on_of_nodup_map hids hyq hx hyid
      have hxok : isOk (net x) = true := hyx ▸ hyok
      have hmem : x.id ∈ succIds net (getQueue st) :=
        hyid ▸ List.mem_map_of_mem _ (List.mem_filter.mpr ⟨hyq, hyok⟩)
      simp [hmem, hxok]
    · have hnok : isOk (net x) = false := by
        by_contra hcon
        have : isOk (net x) = true := by
          cases h : isOk (net x)
          · exact absurd h hcon
          · rfl
        exact hm (List.mem_map_of_mem _ (List.mem_filter.mpr ⟨hx, this⟩))
      simp [hm, hnok]
  by_cases h0 : (getQueue st).length = 0
  · have hnil : getQueue st = [] := List.length_eq_zero.mp h0
    rw [hq, if_pos h0]
    simp [hnil]
  · rw [hq, if_neg h0]
    refine ⟨?_, ?_, ?_⟩
    · rw [syncLoop_queue]
      exact List.filter_congr hpoint
    · have := (syncLoop_counts net (getQueue st) st 0 0).1
      rw [this]; omega
    · have := (syncLoop_counts net (getQueue st) st 0 0).2
      rw [this]; omega

/-- Callers entering `refreshTokens` while a refresh promise is in flight
all join that promise and leave the cell unchanged. -/
theorem refreshTokensEnterN_inflight :
    ∀ (n : Nat) (c : RefreshCell) (p : Nat), c.refreshPromise = some p →
      refreshTokensEnterN n c = (c, List.replicate n p) := by
  intro n
  induction n with
  | zero => intro c p h; simp [refreshTokensEnterN]
  | succ n ih =>
    intro c p h
    simp [refreshTokensEnterN, refreshTokensEnter, h, ih c p h, List.replicate_succ]

/-- A credential returned by `getTokens` never carries an empty refresh
token (the `!accessToken || !refreshToken` guard filters it out). -/
theorem getTokens_refresh_ne_empty (s : SecureStore) (tk : AuthTokens)
    (h : (getTokens s).2 = some tk) : tk.refreshToken ≠ "" := by
  unfold getTokens at h
  split at h
  · rename_i a r heq1 heq2
    split at h
    · simp at h
    · split at h
      · simp at h
      · rename_i hcond _
        simp only [] at h
        cases h
        simp only []
        intro hcon
        exact hcond (Or.inr hcon)
  · simp at h

/-- When a credential is stored, one `_doRefresh` run issues exactly one
request to the refresh endpoint, whatever the endpoint answers. -/
theorem doRefresh_one_call (net : NetResult RefreshData) (lnet : NetResult Unit)
    (now : Int) (s : SecureStore) (tk : AuthTokens)
    (h : (getTokens s).2 = some tk) :
    (doRefresh net lnet now s).2.2 = 1 := by
  have hne := getTokens_refresh_ne_empty s tk h
  unfold doRefresh
  rcases hgt : getTokens s with ⟨s1, tokens⟩
  rw [hgt] at h
  simp only [] at h
  subst h
  simp only [hne, if_false]
  cases net with
  | netErr => rfl
  | resp status data =>
    by_cases hok : 200 ≤ status ∧ status < 300
    · simp only [hok, if_true]
      rcases jsOrStr data.accessToken data.token with _ | a
      · rfl
      · rcases jsOrStr data.refreshToken (some tk.refreshToken) with _ | r <;> rfl
    · simp only [hok, if_false]

/-- C1: single-flight refresh.  For any `n ≥ 2` callers reaching
`refreshTokens` while no refresh is in flight, exactly one `_doRefresh`
promise is started, all `n` callers await the same promise (hence receive
the same resolved value), and since the `finally` clause clears the
in-flight marker once the promise settles, a later call starts a fresh
refresh; each started `_doRefresh` makes exactly one network call to the
refresh endpoint when a session is stored. -/
theorem refreshTokens_single_flight (c : RefreshCell) (n : Nat)
    (hn : 2 ≤ n) (hidle : c.refreshPromise = none) :
    (refreshTokensEnterN n c).1.started = c.started + 1 ∧
    (refreshTokensEnterN n c).2 = List.replicate n c.nextId ∧
    (refreshTokensEnter (refreshTokensSettle (refreshTokensEnterN n c).1)).1.started
      = c.started + 2 ∧
    (∀ (net : NetResult RefreshData) (lnet : NetResult Unit) (now : Int)
       (s : SecureStore) (tk : AuthTokens), (getTokens s).2 = some tk →
         (doRefresh net lnet now s).2.2 = 1) := by
  cases n with
  | zero => omega
  | succ m =>
    have hstep : refreshTokensEnterN (m + 1) c
        = ({ refreshPromise := some c.nextId, started := c.started + 1,
             nextId := c.nextId + 1 }, c.nextId :: List.replicate m c.nextId) := by
      have hrep := refreshTokensEnterN_inflight m
        { refreshPromise := some c.nextId, started := c.started + 1, nextId := c.nextId + 1 }
        c.nextId rfl
      simp [refreshTokensEnterN, refreshTokensEnter, hidle, hrep]
    refine ⟨by rw [hstep], by rw [hstep]; simp [List.replicate_succ], by rw [hstep]; rfl,
      fun net lnet now s tk h => doRefresh_one_call net lnet now s tk h⟩

/-- Witness for C1 at a concrete idle cell and `n = 2`. -/
theorem refreshTokens_single_flight_witness :
    (refreshTokensEnterN 2 ⟨none, 0, 0⟩).1.started = 0 + 1 ∧
    (refreshTokensEnterN 2 ⟨none, 0, 0⟩).2 = List.replicate 2 0 ∧
    (refreshTokensEnter (refreshTokensSettle (refreshTokensEnterN 2 ⟨none, 0, 0⟩).1)).1.started
      = 0 + 2 ∧
    (∀ (net : NetResult RefreshData) (lnet : NetResult Unit) (now : Int)
       (s : SecureStore) (tk : AuthTokens), (getTokens s).2 = some tk →
         (doRefresh net lnet now s).2.2 = 1) :=
  refreshTokens_single_flight ⟨none, 0, 0⟩ 2 (by decide) rfl

/-- C5: retry-once on 401.  When `auth.fetch` holds a non-expired stored
credential and its first request returns 401, it calls `refreshTokens`
again: if that yields `null` the call throws `Session expired` after the
single request, and otherwise exactly one retry is issued bearing the new
access token and the outcome of that second request — success, failure
status or thrown network error — is returned as-is, with no third
request. -/
theorem authFetch_retry_once (now : Int) (s : SecureStore) (tk : AuthTokens)
    (rs : List (Option AuthTokens)) (rest : List FetchOutcome)
    (htk : (getTokens s).2 = some tk)
    (hexp : isTokenExpired now tk.accessToken = false) :
    (rs.getD 0 none = none →
      authFetch now rs (.resp 401 :: rest) s = (.sessionExpired, [tk.accessToken])) ∧
    (∀ t', rs.getD 0 none = some t' →
      (authFetch now rs (.resp 401 :: rest) s).2 = [tk.accessToken, t'.accessToken] ∧
      (authFetch now rs (.resp 401 :: rest) s).1 =
        (match rest.getD 0 .netErr with
         | .resp st2 => .response st2
         | .netErr => .networkFailure)) := by
  have hred : authFetch now rs (.resp 401 :: rest) s
      = authFetchIssue tk (rs.getD 0 none) (.resp 401 :: rest) := by
    unfold authFetch
    rw [htk]
    simp only [hexp, Bool.false_eq_true, if_false]
  constructor
  · intro hr
    rw [hred]
    unfold authFetchIssue
    simp only [List.getD_eq_getElem?_getD] at hr ⊢
    simp [hr]
  · intro t' hr
    rw [hred]
    unfold authFetchIssue
    simp only [List.getD_eq_getElem?_getD] at hr ⊢
    simp only [hr]
    cases h2 : rest.getD 0 FetchOutcome.netErr with
    | resp st2 =>
      simp only [List.getD_eq_getElem?_getD] at h2
      simp [h2]
    | netErr =>
      simp only [List.getD_eq_getElem?_getD] at h2
      simp [h2]

/-- Only objects have properties, and every object is truthy. -/
theorem jsonLookup_some_truthy (v : JsonValue) (k : String) (e : JsonValue)
    (h : jsonLookup v k = some e) : jsTruthy v = true := by
  cases v <;> simp [jsonLookup, jsTruthy] at h ⊢

/-- Characterization of `isTokenExpired`: a token is reported NOT expired
exactly when its payload segment decodes to an object with a truthy `exp`
member that either coerces to `NaN` (making the comparison with
`Date.now()` false) or denotes a time more than the 60-second margin in
the future. -/
theorem isTokenExpired_not_expired_iff (now : Int) (token : String) :
    isTokenExpired now token = false ↔
      ∃ v e, decodeJWT token = some v ∧ jsonLookup v "exp" = some e ∧ jsTruthy e = true ∧
        (jsToNumber e = none ∨ ∃ m, jsToNumber e = some m ∧ now < m * 1000 - 60000) := by
  unfold isTokenExpired
  by_cases h0 : token = ""
  · subst h0
    have hdec : decodeJWT "" = none := rfl
    simp [hdec]
  · rw [if_neg h0]
    cases hdec : decodeJWT token with
    | none => simp [hdec]
    | some v =>
      cases htru : jsTruthy v with
      | false =>
        simp only [htru, Bool.not_false, if_true, hdec]
        constructor
        · intro h; cases h
        · rintro ⟨v', e, hv, hlook, _⟩
          cases hv
          exact absurd (jsonLookup_some_truthy _ _ _ hlook) (by simp [htru])
      | true =>
        simp only [htru, Bool.not_true, Bool.false_eq_true, if_false]
        cases hlook : jsonLookup v "exp" with
        | none => simp [hlook]
        | some e =>
          cases hte : jsTruthy e with
          | false => simp [hlook, hte]
          | true =>
            cases hnum : jsToNumber e with
            | none => simp [hlook, hte, hnum]
            | some m =>
              simp only [hlook, hte, hnum, Bool.not_true, Bool.false_eq_true, if_false]
              simp only [decide_eq_false_iff_not, not_le]
              constructor
              · intro h
                exact ⟨v, e, rfl, hlook, hte, Or.inr ⟨m, hnum, h⟩⟩
              · rintro ⟨v', e', hv, hlook', hte', hor⟩
                cases hv
                rw [hlook] at hlook'
                cases hlook'
                rcases hor with hnone | ⟨m', hm', hlt⟩
                · rw [hnum] at hnone; cases hnone
                · rw [hnum] at hm'; cases hm'; exact hlt


/-- Appending a digit multiplies the value by ten and adds the digit. -/
theorem digitsVal_append (xs : List Nat) (d : Nat) :
    digitsVal (xs ++ [d]) = 10 * digitsVal xs + d := by
  simp [digitsVal, List.foldl_append]

/-- With enough fuel, `natDigits` is a correct decimal expansion. -/
theorem natDigits_val (fuel : Nat) : ∀ n, n < fuel → digitsVal (natDigits fuel n) = n := by
  induction fuel with
  | zero => intro n h; omega
  | succ fuel ih =>
    intro n h
    unfold natDigits
    by_cases h10 : n < 10
    · simp [h10, digitsVal]
    · have hdiv : n / 10 < fuel := by
        have := Nat.div_lt_self (by omega : 0 < n) (by omega : 1 < 10)
        omega
      simp only [h10, if_false]
      rw [digitsVal_append, ih _ hdiv]
      omega

/-- Every produced decimal digit is below ten. -/
theorem natDigits_lt (fuel : Nat) : ∀ n d, d ∈ natDigits fuel n → d < 10 := by
  induction fuel with
  | zero => intro n d h; simp [natDigits] at h
  | succ fuel ih =>
    intro n d h
    unfold natDigits at h
    by_cases h10 : n < 10
    · simp [h10] at h; omega
    · simp only [h10, if_false, List.mem_append, List.mem_singleton] at h
      rcases h with h | h
      · exact ih _ _ h
      · omega

/-- The decimal expansion of any number has at least one digit. -/
theorem natDigits_ne_nil (fuel n : Nat) (h : 0 < fuel) : natDigits fuel n ≠ [] := by
  cases fuel with
  | zero => omega
  | succ fuel =>
    unfold natDigits
    by_cases h10 : n < 10 <;> simp [h10]

/-- Reading back the character of a digit recovers the digit. -/
theorem digitVal?_digitChar (d : Nat) (h : d < 10) : digitVal? (digitChar d) = some d := by
  interval_cases d <;> rfl

/-- Digit characters are not whitespace. -/
theorem isJsWs_digitChar (d : Nat) (h : d < 10) : isJsWs (digitChar d) = false := by
  interval_cases d <;> rfl

/-- Digit characters are not the minus sign. -/
theorem digitChar_ne_minus (d : Nat) (h : d < 10) : digitChar d ≠ '-' := by
  interval_cases d <;> decide

/-- Digit characters are not the plus sign. -/
theorem digitChar_ne_plus (d : Nat) (h : d < 10) : digitChar d ≠ '+' := by
  interval_cases d <;> decide

/-- Scanning printed digits consumes them all and recovers their values. -/
theorem takeDigits_map_digitChar (ds : List Nat) (h : ∀ d ∈ ds, d < 10) :
    takeDigits (ds.map digitChar) = (ds, []) := by
  induction ds with
  | nil => rfl
  | cons d ds ih =>
    simp only [List.map_cons, takeDigits]
    rw [digitVal?_digitChar d (h d (by simp))]
    simp [ih (fun x hx => h x (by simp [hx]))]

/-- Parsing a printed natural number recovers it. -/
theorem jsParseInt_natToChars (n : Nat) : jsParseInt ⟨natToChars n⟩ = some (n : Int) := by
  have hne := natDigits_ne_nil (n + 1) n (by omega)
  obtain ⟨d, ds', hds⟩ : ∃ d ds', natDigits (n + 1) n = d :: ds' := by
    cases h : natDigits (n + 1) n with
    | nil => exact absurd h hne
    | cons a l => exact ⟨a, l, rfl⟩
  have hd10 : d < 10 := natDigits_lt (n + 1) n d (by rw [hds]; simp)
  have hlt : ∀ x ∈ natDigits (n + 1) n, x < 10 := fun x hx => natDigits_lt _ _ _ hx
  have hval : digitsVal (natDigits (n + 1) n) = n := natDigits_val (n + 1) n (by omega)
  have htake : takeDigits ((natDigits (n + 1) n).map digitChar) = (natDigits (n + 1) n, []) :=
    takeDigits_map_digitChar _ hlt
  unfold jsParseInt natToChars
  simp only [hds, List.map_cons, List.dropWhile_cons,
    isJsWs_digitChar d hd10, Bool.false_eq_true, if_false]
  split
  · rename_i heq
    exact absurd (List.cons.injEq _ _ _ _ ▸ congrArg id heq).1 (digitChar_ne_minus d hd10)
  · rename_i heq
    exact absurd (List.cons.injEq _ _ _ _ ▸ congrArg id heq).1 (digitChar_ne_plus d hd10)
  · rw [hds] at htake
    simp only [List.map_cons] at htake
    rw [htake]
    show some ((digitsVal (d :: ds') : Nat) : Int) = some (n : Int)
    rw [← hds, hval]

/-- Round trip of `parseInt` over `Number.prototype.toString` on
integers. -/
theorem jsParseInt_jsIntToString (n : Int) : jsParseInt (jsIntToString n) = some n := by
  by_cases hneg : n < 0
  · have hne := natDigits_ne_nil (n.natAbs + 1) n.natAbs (by omega)
    obtain ⟨d, ds', hds⟩ : ∃ d ds', natDigits (n.natAbs + 1) n.natAbs = d :: ds' := by
      cases h : natDigits (n.natAbs + 1) n.natAbs with
      | nil => exact absurd h hne
      | cons a l => exact ⟨a, l, rfl⟩
    have hlt : ∀ x ∈ natDigits (n.natAbs + 1) n.natAbs, x < 10 :=
      fun x hx => natDigits_lt _ _ _ hx
    have hval : digitsVal (natDigits (n.natAbs + 1) n.natAbs) = n.natAbs :=
      natDigits_val _ _ (by omega)
    have htake : takeDigits ((natDigits (n.natAbs + 1) n.natAbs).map digitChar)
        = (natDigits (n.natAbs + 1) n.natAbs, []) := takeDigits_map_digitChar _ hlt
    have hdata : ("-" ++ (⟨natToChars n.natAbs⟩ : String)).data
        = '-' :: (natDigits (n.natAbs + 1) n.natAbs).map digitChar := rfl
    unfold jsIntToString
    rw [if_pos hneg]
    unfold jsParseInt
    rw [hdata]
    show (match takeDigits ((natDigits (n.natAbs + 1) n.natAbs).map digitChar) with
      | ([], _) => none
      | (ds, _) => some (-(digitsVal ds : Int))) = some n
    rw [htake, hds]
    show some (-((digitsVal (d :: ds') : Nat) : Int)) = some n
    rw [← hds, hval]
    congr 1
    omega
  · have h0 : (n.toNat : Int) = n := Int.toNat_of_nonneg (by omega)
    unfold jsIntToString
    rw [if_neg hneg]
    rw [jsParseInt_natToChars n.toNat, h0]

/-- A printed number is never the empty string. -/
theorem jsIntToString_ne_empty (n : Int) : jsIntToString n ≠ "" := by
  unfold jsIntToString
  by_cases hneg : n < 0
  · rw [if_pos hneg]
    intro h
    have := congrArg String.data h
    simp at this
  · rw [if_neg hneg]
    intro h
    have := congrArg String.data h
    simp only [natToChars] at this
    have h2 := natDigits_ne_nil (n.toNat + 1) n.toNat (by omega)
    simp at this
    exact h2 this

/-- C9 (amended): round trip of Credential.  Saving a credential and
reading it back yields field-for-field equality, `expiresAt` recovered as
the same millisecond integer — provided both token strings are non-empty
and the access token is not a mock value (`SIMULATOR_MOCK_TOKEN` or a
`mock-` prefix), which `getTokens` rejects and clears. -/
theorem saveTokens_getTokens_roundTrip (t : AuthTokens) (s : SecureStore) (n : Int)
    (ha : t.accessToken ≠ "") (hr : t.refreshToken ≠ "")
    (hm1 : t.accessToken ≠ "SIMULATOR_MOCK_TOKEN")
    (hm2 : jsStartsWith t.accessToken "mock-" = false)
    (hexp : t.expiresAt = some n) :
    getTokens (saveTokens t s) = (saveTokens t s, some t) := by
  cases t with
  | mk a r e =>
    simp only [] at ha hr hm1 hm2 hexp
    subst hexp
    simp [getTokens, saveTokens, ha, hr, hm1, hm2, jsIntToString_ne_empty n,
      jsParseInt_jsIntToString n]

/-- Witness for C5: a stored valid session whose first request returns
401 and whose retry returns 503; the 503 response is returned as-is after
exactly two requests. -/
theorem authFetch_retry_once_witness :
    ((getTokens ⟨some "h.eyJleHAiOjE3NjAwMDAxMjB9.s", some "R", some "1760000120000", some "u"⟩).2
        = some ⟨"h.eyJleHAiOjE3NjAwMDAxMjB9.s", "R", some 1760000120000⟩ ∧
      isTokenExpired 1760000000000 "h.eyJleHAiOjE3NjAwMDAxMjB9.s" = false) ∧
    (authFetch 1760000000000 [some ⟨"A2", "R2", some 0⟩] [.resp 401, .resp 503]
        ⟨some "h.eyJleHAiOjE3NjAwMDAxMjB9.s", some "R", some "1760000120000", some "u"⟩).2
      = ["h.eyJleHAiOjE3NjAwMDAxMjB9.s", "A2"] ∧
    (authFetch 1760000000000 [some ⟨"A2", "R2", some 0⟩] [.resp 401, .resp 503]
        ⟨some "h.eyJleHAiOjE3NjAwMDAxMjB9.s", some "R", some "1760000120000", some "u"⟩).1
      = .response 503 :=
  ⟨⟨by decide, by decide⟩,
    ((authFetch_retry_once 1760000000000
        ⟨some "h.eyJleHAiOjE3NjAwMDAxMjB9.s", some "R", some "1760000120000", some "u"⟩
        ⟨"h.eyJleHAiOjE3NjAwMDAxMjB9.s", "R", some 1760000120000⟩
        [some ⟨"A2", "R2", some 0⟩] [.resp 503] (by decide) (by decide)).2
      ⟨"A2", "R2", some 0⟩ (by decide)).1,
    ((authFetch_retry_once 1760000000000
        ⟨some "h.eyJleHAiOjE3NjAwMDAxMjB9.s", some "R", some "1760000120000", some "u"⟩
        ⟨"h.eyJleHAiOjE3NjAwMDAxMjB9.s", "R", some 1760000120000⟩
        [some ⟨"A2", "R2", some 0⟩] [.resp 503] (by decide) (by decide)).2
      ⟨"A2", "R2", some 0⟩ (by decide)).2⟩

/-- C6 (amended): `isTokenExpired` reports a token not expired exactly
when its second dot-separated segment decodes (base64url, UTF-8, JSON) to
an object with a truthy `exp` member that coerces to `NaN` or to a number
more than 60 seconds (margin) in the future — there is no check for
exactly three segments, and a truthy non-numeric `exp` is reported not
expired.  Concretely, with the 60-second margin a token expiring 30
seconds from now is expired, one expiring 120 seconds from now is not,
and one with no `exp` claim is expired. -/
theorem isTokenExpired_margin_spec :
    (∀ (now : Int) (token : String),
      isTokenExpired now token = false ↔
        ∃ v e, decodeJWT token = some v ∧ jsonLookup v "exp" = some e ∧ jsTruthy e = true ∧
          (jsToNumber e = none ∨ ∃ m, jsToNumber e = some m ∧ now < m * 1000 - 60000)) ∧
    isTokenExpired 1760000000000 "h.eyJleHAiOjE3NjAwMDAwMzB9.s" = true ∧
    isTokenExpired 1760000000000 "h.eyJleHAiOjE3NjAwMDAxMjB9.s" = false ∧
    isTokenExpired 1760000000000 "h.eyJuYW1lIjoieCJ9.s" = true :=
  ⟨isTokenExpired_not_expired_iff, by decide, by decide, by decide⟩

/-- C6 counterexample: a two-segment token — not a three-segment
structure, which the claim says must be reported expired — whose payload
decodes fine and whose `exp` lies far in the future is reported NOT
expired. -/
theorem isTokenExpired_two_segment_counterexample :
    (jsSplitDot "x.eyJleHAiOjk5OTk5OTk5OTl9").length = 2 ∧
    decodeJWT "x.eyJleHAiOjk5OTk5OTk5OTl9"
      = some (.obj [("exp", .num 9999999999)]) ∧
    isTokenExpired 1760227200000 "x.eyJleHAiOjk5OTk5OTk5OTl9" = false :=
  ⟨by decide, rfl, by decide⟩

/-- C2 counterexample: one queued operation whose endpoint answers 500.
The claim requires `failed = 1` and `synced + failed = 1`; the code leaves
the operation queued but returns `{synced := 0, failed := 0}`. -/
theorem syncQueue_non2xx_counterexample :
    syncQueue (fun _ => .resp 500) ⟨some [⟨"a1", "CREATE", "/trips", "POST", "p", 1⟩]⟩
      = (⟨some [⟨"a1", "CREATE", "/trips", "POST", "p", 1⟩]⟩, 0, 0) := by decide

/-- C3: `logout` behaviour, independent of the network outcome of the
best-effort server notification (which it swallows).  Contrary to the
claim, a stored Credential is NOT cleared: `Promise.all([this.clearTokens,
this.clearUser()])` only references `clearTokens` without invoking it, so
the three token keys survive and only the user entry is removed.  Calling
it with no session present does not throw and leaves storage empty. -/
theorem logout_leaves_token_keys (net : NetResult Unit) :
    logout net ⟨some "A", some "R", some "5", some "u"⟩
      = ⟨some "A", some "R", some "5", none⟩ ∧
    logout net emptyStore = emptyStore :=
  ⟨rfl, rfl⟩

/-- C4: `checkIsOnline` is not a connectivity probe.  Its result is the
persisted offline queue itself — the very conflation the design forbids —
and, being an array, it is truthy even when the queue is empty, so
`syncQueue`'s offline guard never fires. -/
theorem checkIsOnline_returns_queue (st : OfflineStore) :
    checkIsOnline st = getQueue st ∧ jsArrayTruthy (checkIsOnline st) = true :=
  ⟨rfl, rfl⟩

/-- C7: when the refresh endpoint answers non-2xx, `_doRefresh` returns
`null` after its single network call but — through the broken `logout` —
clears only the user entry, leaving the supposedly dead Credential in
secure storage, contrary to the claim; with no stored refresh token it
does fail immediately with no network call. -/
theorem doRefresh_non2xx_keeps_credential :
    doRefresh (.resp 401 ⟨none, none, none, none⟩) (.resp 204 ()) 1760000000000
        ⟨some "A", some "R", some "5", some "u"⟩
      = (⟨some "A", some "R", some "5", none⟩, none, 1) ∧
    (∀ (net : NetResult RefreshData) (lnet : NetResult Unit) (now : Int),
      doRefresh net lnet now emptyStore = (emptyStore, none, 0)) :=
  ⟨by decide, fun _ _ _ => rfl⟩

/-- C8 counterexample: two distinct operations enqueued with the same
`Date.now()` reading and the same random suffix receive the same id,
contradicting the claimed unconditional id uniqueness. -/
theorem addToQueue_id_collision :
    getQueue (addToQueue 7 "k3jq8r2mf" "UPDATE" "/trips/1" "PUT" "p2"
        (addToQueue 7 "k3jq8r2mf" "CREATE" "/trips" "POST" "p1" ⟨none⟩))
      = [⟨"7-k3jq8r2mf", "CREATE", "/trips", "POST", "p1", 7⟩,
         ⟨"7-k3jq8r2mf", "UPDATE", "/trips/1", "PUT", "p2", 7⟩] := by decide

/-- C8 (amended): `addToQueue` appends the new operation — id
`` `${Date.now()}-${randomSuffix}` ``, timestamp `Date.now()` — at the end
of the persisted queue, leaving all previously queued operations unchanged
and in order; it returns `Promise<void>`, not the stored record, and ids
are unique only as far as the time/suffix pairs are. -/
theorem addToQueue_appends (now : Nat) (rand : String) (ty ep me pl : String)
    (st : OfflineStore) :
    getQueue (addToQueue now rand ty ep me pl st)
      = getQueue st ++ [⟨(⟨natToChars now⟩ : String) ++ "-" ++ rand, ty, ep, me, pl, now⟩] :=
  rfl

/-- C9 counterexample: a credential whose access token has the `mock-`
prefix does not survive the round trip — `getTokens` clears it and
reports no credential. -/
theorem credential_roundTrip_counterexample :
    (getTokens (saveTokens ⟨"mock-abc", "R", some 5⟩ emptyStore)).2
      ≠ some ⟨"mock-abc", "R", some 5⟩ := by decide

/-- Witness for C9 at a concrete ordinary credential. -/
theorem saveTokens_getTokens_roundTrip_witness :
    ("accA" ≠ "" ∧ "refR" ≠ "" ∧ "accA" ≠ "SIMULATOR_MOCK_TOKEN" ∧
      jsStartsWith "accA" "mock-" = false) ∧
    getTokens (saveTokens ⟨"accA", "refR", some 1735689600000⟩ emptyStore)
      = (saveTokens ⟨"accA", "refR", some 1735689600000⟩ emptyStore,
         some ⟨"accA", "refR", some 1735689600000⟩) :=
  ⟨⟨by decide, by decide, by decide, by decide⟩,
    saveTokens_getTokens_roundTrip ⟨"accA", "refR", some 1735689600000⟩ emptyStore
      1735689600000 (by decide) (by decide) (by decide) (by decide) rfl⟩

/-- C10: when the stored access token is `SIMULATOR_MOCK_TOKEN` or has
the `mock-` prefix, `getTokens` deletes the three token entries from
secure storage and reports no credential, although a refresh token and an
expiry are present. -/
theorem getTokens_clears_mock (s : SecureStore) (a r e : String)
    (hacc : s.access_token = some a) (href : s.refresh_token = some r)
    (_hexp : s.token_expiry = some e) (hrne : r ≠ "")
    (hmock : a = "SIMULATOR_MOCK_TOKEN" ∨ jsStartsWith a "mock-" = true) :
    getTokens s
      = ({ s with access_token := none, refresh_token := none, token_expiry := none },
         none) := by
  have hane : a ≠ "" := by
    rcases hmock with h | h
    · subst h; decide
    · intro hae
      rw [hae] at h
      exact absurd h (by decide)
  unfold getTokens
  rw [hacc, href]
  show (if a = "" ∨ r = "" then (s, none)
    else if a = "SIMULATOR_MOCK_TOKEN" ∨ jsStartsWith a "mock-" then (clearTokens s, none)
    else (s, some
      ({ accessToken := a
         refreshToken := r
         expiresAt :=
           match s.token_expiry with
           | some e => if e = "" then some 0 else jsParseInt e
           | none => some 0 } : AuthTokens)))
    = ({ s with access_token := none, refresh_token := none, token_expiry := none }, none)
  rw [if_neg (not_or.mpr ⟨hane, hrne⟩), if_pos (by exact_mod_cast hmock)]
  rfl

/-- Witness for C10 at a concrete mock session. -/
theorem getTokens_clears_mock_witness :
    ((⟨some "SIMULATOR_MOCK_TOKEN", some "R", some "99", some "u"⟩ : SecureStore).access_token
        = some "SIMULATOR_MOCK_TOKEN" ∧ ("R" : String) ≠ "" ∧
      ("SIMULATOR_MOCK_TOKEN" = "SIMULATOR_MOCK_TOKEN" ∨
        jsStartsWith "SIMULATOR_MOCK_TOKEN" "mock-" = true)) ∧
    getTokens ⟨some "SIMULATOR_MOCK_TOKEN", some "R", some "99", some "u"⟩
      = (⟨none, none, none, some "u"⟩, none) :=
  ⟨⟨rfl, by decide, Or.inl rfl⟩,
    getTokens_clears_mock ⟨some "SIMULATOR_MOCK_TOKEN", some "R", some "99", some "u"⟩
      "SIMULATOR_MOCK_TOKEN" "R" "99" rfl rfl rfl (by decide) (Or.inl rfl)⟩

/-- Witness for C2 on the queue A, B, C where B's request throws a
network error and A, C succeed: `{synced := 2, failed := 1}` and only B
remains queued. -/
theorem syncQueue_replay_witness :
    ((getQueue (⟨some [⟨"a", "CREATE", "/trips", "POST", "pa", 1⟩,
        ⟨"b", "UPDATE", "/trips/1", "PUT", "pb", 2⟩,
        ⟨"c", "DELETE", "/trips/2", "DELETE", "pc", 3⟩]⟩ : OfflineStore)).map
      QueueAction.id).Nodup ∧
    getQueue (syncQueue (fun a => if a.id = "b" then .netErr else .resp 200)
        ⟨some [⟨"a", "CREATE", "/trips", "POST", "pa", 1⟩,
          ⟨"b", "UPDATE", "/trips/1", "PUT", "pb", 2⟩,
          ⟨"c", "DELETE", "/trips/2", "DELETE", "pc", 3⟩]⟩).1
      = [⟨"b", "UPDATE", "/trips/1", "PUT", "pb", 2⟩] ∧
    (syncQueue (fun a => if a.id = "b" then .netErr else .resp 200)
        ⟨some [⟨"a", "CREATE", "/trips", "POST", "pa", 1⟩,
          ⟨"b", "UPDATE", "/trips/1", "PUT", "pb", 2⟩,
          ⟨"c", "DELETE", "/trips/2", "DELETE", "pc", 3⟩]⟩).2.1 = 2 ∧
    (syncQueue (fun a => if a.id = "b" then .netErr else .resp 200)
        ⟨some [⟨"a", "CREATE", "/trips", "POST", "pa", 1⟩,
          ⟨"b", "UPDATE", "/trips/1", "PUT", "pb", 2⟩,
          ⟨"c", "DELETE", "/trips/2", "DELETE", "pc", 3⟩]⟩).2.2 = 1 :=
  ⟨by decide,
    (syncQueue_replay (fun a => if a.id = "b" then .netErr else .resp 200)
      ⟨some [⟨"a", "CREATE", "/trips", "POST", "pa", 1⟩,
        ⟨"b", "UPDATE", "/trips/1", "PUT", "pb", 2⟩,
        ⟨"c", "DELETE", "/trips/2", "DELETE", "pc", 3⟩]⟩ (by decide)).1,
    (syncQueue_replay (fun a => if a.id = "b" then .netErr else .resp 200)
      ⟨some [⟨"a", "CREATE", "/trips", "POST", "pa", 1⟩,
        ⟨"b", "UPDATE", "/trips/1", "PUT", "pb", 2⟩,
        ⟨"c", "DELETE", "/trips/2", "DELETE", "pc", 3⟩]⟩ (by decide)).2.1,
    (syncQueue_replay (fun a => if a.id = "b" then .netErr else .resp 200)
      ⟨some [⟨"a", "CREATE", "/trips", "POST", "pa", 1⟩,
        ⟨"b", "UPDATE", "/trips/1", "PUT", "pb", 2⟩,
        ⟨"c", "DELETE", "/trips/2", "DELETE", "pc", 3⟩]⟩ (by decide)).2.2⟩
